import Mathlib

/-!
Shallow embedding of the crate-wide name-resolution engine of
`crates/ra_hir/src/nameres.rs` (plus the small pieces of
`code_model_impl/module.rs` it calls).

Modelling conventions:
* `Name`, `ModuleId`, `CrateId`, `ImportId` and the payloads of the
  non-module `ModuleDef` variants are `Nat` (they are opaque interned ids in
  the source).
* Rust's `FxHashMap` becomes an association list with replace-on-insert
  (`insertName`); iteration order is the list order, which also lets us talk
  about the iteration-order permutations the spec discusses.
* The externally supplied database (`PersistentHirDatabase`: module tree,
  crate dependencies, other crates' item maps, enum variants) is a record of
  functions, `Db`.
* panics become `Except String` errors carrying the panic message.
* The source bounds recursion by a `depth` counter that counts up and panics
  past a cap; we count the remaining budget (`gas = cap + 1 - depth`) down to
  `0` so the recursion is structural, with the error fired exactly where the
  source panics.
-/

namespace Nameres

/-- Interned name (opaque in the source). -/
abbrev Name := Nat

abbrev ModuleId := Nat

abbrev CrateId := Nat

abbrev ImportId := Nat

/-- The source's `Module { krate, module_id }` handle. -/
structure Module where
  krate : CrateId
  module_id : ModuleId
deriving DecidableEq, Repr

/-- The `ModuleDef` type: what a name can resolve to.  Only `Module` and `Enum` are
inspected structurally by the resolver; enum variants and everything else
(functions, structs, consts, ...) are opaque, so they are collapsed to
id-carrying variants. -/
inductive ModuleDef where
  | module (m : Module)
  | enum (e : Nat)
  | variant (v : Nat)
  | other (d : Nat)
deriving DecidableEq, Repr

/-- The `PerNs<T>` container: a value per namespace (`types` / `values`). -/
structure PerNs (T : Type) where
  types : Option T
  values : Option T
deriving DecidableEq, Repr

namespace PerNs

def none {T : Type} : PerNs T := ⟨Option.none, Option.none⟩

def values_ {T : Type} (t : T) : PerNs T := ⟨Option.none, some t⟩

def types_ {T : Type} (t : T) : PerNs T := ⟨some t, Option.none⟩

def both {T : Type} (t v : T) : PerNs T := ⟨some t, some v⟩

def is_none {T : Type} (p : PerNs T) : Bool := p.types.isNone && p.values.isNone

def is_both {T : Type} (p : PerNs T) : Bool := p.types.isSome && p.values.isSome

def take_types {T : Type} (p : PerNs T) : Option T := p.types

def take_values {T : Type} (p : PerNs T) : Option T := p.values

def or {T : Type} (p q : PerNs T) : PerNs T :=
  ⟨p.types.or q.types, p.values.or q.values⟩

def map {T U : Type} (p : PerNs T) (f : T → U) : PerNs U :=
  ⟨p.types.map f, p.values.map f⟩

def and_then {T U : Type} (p : PerNs T) (f : T → Option U) : PerNs U :=
  ⟨p.types.bind f, p.values.bind f⟩

end PerNs

/-- The `Resolution { def, import }` record.  `def` and `import` are Lean keywords, so
the fields are called `defn` and `imp`. -/
structure Resolution where
  defn : PerNs ModuleDef
  imp : Option ImportId
deriving DecidableEq, Repr

instance : Inhabited Resolution := ⟨⟨PerNs.none, Option.none⟩⟩

/-- Lookup in an `FxHashMap`, over an association list. -/
def lookupName {α : Type} : List (Name × α) → Name → Option α
  | [], _ => Option.none
  | (k, v) :: rest, n => if k = n then some v else lookupName rest n

/-- Insert for `FxHashMap`: replace an existing binding in place, else append. -/
def insertName {α : Type} : List (Name × α) → Name → α → List (Name × α)
  | [], n, v => [(n, v)]
  | (k, w) :: rest, n, v =>
    if k = n then (k, v) :: rest else (k, w) :: insertName rest n v

/-- The `ModuleScope { items }` record. -/
structure ModuleScope where
  items : List (Name × Resolution)
deriving DecidableEq, Repr

instance : Inhabited ModuleScope := ⟨⟨[]⟩⟩

def ModuleScope.get (s : ModuleScope) (n : Name) : Option Resolution :=
  lookupName s.items n

/-- The `ItemMap { extern_prelude, per_module }` record. -/
structure ItemMap where
  extern_prelude : List (Name × ModuleDef)
  per_module : List (ModuleId × ModuleScope)
deriving DecidableEq, Repr

/-- Indexing `per_module` by module id.  The source panics on an unknown id;
every module of the crate is populated before any lookup happens, so the
default scope is unreachable and we keep the function total. -/
def ItemMap.scope (m : ItemMap) (id : ModuleId) : ModuleScope :=
  (lookupName m.per_module id).getD default

/-- The externally supplied database: crate dependency lists, per-crate module
trees (children / parent / crate root), other crates' already-computed item
maps, and enum variant lists (a variant id paired with its optional name,
mirroring `EnumVariant::name(db) -> Option<Name>`). -/
structure Db where
  dependencies : CrateId → List (Name × CrateId)
  root_module : CrateId → Option Module
  children : CrateId → ModuleId → List (Name × ModuleId)
  parent : CrateId → ModuleId → Option ModuleId
  crate_root : CrateId → ModuleId → ModuleId
  item_map : CrateId → ItemMap
  variants : Nat → List (Nat × Option Name)

/-- The method `Module::crate_root(db)` (stays in the module's own crate). -/
def Module.crate_root (db : Db) (m : Module) : Module :=
  ⟨m.krate, db.crate_root m.krate m.module_id⟩

/-- The method `Module::parent(db)`. -/
def Module.parent (db : Db) (m : Module) : Option Module :=
  (db.parent m.krate m.module_id).map (fun p => ⟨m.krate, p⟩)

/-- The method `Enum::variant(db, name)`: find the variant with the given name. -/
def Db.variant (db : Db) (e : Nat) (name : Name) : Option Nat :=
  ((db.variants e).find? (fun p => p.snd = some name)).map (fun p => p.fst)

inductive PathKind where
  | crate
  | self_
  | super_
  | plain
  | abs
deriving DecidableEq, Repr

/-- A path: kind plus segment names (segments carry only their name here). -/
structure Path where
  kind : PathKind
  segments : List Name
deriving DecidableEq, Repr

inductive ReachedFixedPoint where
  | yes
  | no
deriving DecidableEq, Repr

/-- The method `ItemMap::resolve_name_in_module`: local scope first, `or`-filled from the
extern prelude (which only ever holds Types-namespace entries). -/
def resolve_name_in_module (m : ItemMap) (module : Module) (name : Name) :
    PerNs ModuleDef :=
  let from_scope :=
    match (m.scope module.module_id).get name with
    | some it => it.defn
    | Option.none => PerNs.none
  let from_extern_prelude :=
    match lookupName m.extern_prelude name with
    | some it => PerNs.types_ it
    | Option.none => PerNs.none
  from_scope.or from_extern_prelude

/-- The per-segment loop of `ItemMap::resolve_path_fp`: walk the remaining
segments from the accumulated `curr_per_ns`.

The cross-crate case (`module.krate != original_module.krate`) delegates in
the source to the foreign map's `resolve_path` with `PathKind::Self_` and the
remaining segments (current one included), discarding the foreign fixed-point
flag.  With `Self_`, that call starts from `curr = types(module)` and its
first loop iteration necessarily takes the same-crate module branch, looking
the current segment up in the foreign scope; we inline that first iteration so
the recursion is structural on the segment list. -/
def walk (db : Db) : ItemMap → Module → PerNs ModuleDef → List Name →
    PerNs ModuleDef × ReachedFixedPoint
  | _, _, curr_per_ns, [] => (curr_per_ns, ReachedFixedPoint.yes)
  | m, original_module, curr_per_ns, segment :: rest =>
    match curr_per_ns.take_types with
    | Option.none =>
      -- segments remain but the path so far has no Types-namespace value
      (PerNs.none, ReachedFixedPoint.no)
    | some curr =>
      match curr with
      | ModuleDef.module module =>
        if module.krate ≠ original_module.krate then
          let fmap := db.item_map module.krate
          let inner : PerNs ModuleDef × ReachedFixedPoint :=
            match (fmap.scope module.module_id).get segment with
            | some res =>
              if res.defn.is_none then (PerNs.none, ReachedFixedPoint.no)
              else walk db fmap module res.defn rest
            | Option.none => (PerNs.none, ReachedFixedPoint.no)
          (inner.fst, ReachedFixedPoint.yes)
        else
          match (m.scope module.module_id).get segment with
          | some res =>
            if res.defn.is_none then (PerNs.none, ReachedFixedPoint.no)
            else walk db m original_module res.defn rest
          | Option.none => (PerNs.none, ReachedFixedPoint.no)
      | ModuleDef.enum e =>
        -- enum variant; on a miss the loop continues with an empty PerNs
        match db.variant e segment with
        | some variant => walk db m original_module (PerNs.both (ModuleDef.variant variant) (ModuleDef.enum e)) rest
        | Option.none => walk db m original_module PerNs.none rest
      | _ =>
        -- unsupported associated item access
        (PerNs.none, ReachedFixedPoint.yes)

/-- The method `ItemMap::resolve_path_fp`: seed `curr_per_ns` from the path kind, then
walk the remaining segments. -/
def resolve_path_fp (db : Db) (m : ItemMap) (original_module : Module)
    (path : Path) : PerNs ModuleDef × ReachedFixedPoint :=
  match path.kind with
  | PathKind.crate =>
    walk db m original_module
      (PerNs.types_ (ModuleDef.module (original_module.crate_root db))) path.segments
  | PathKind.self_ =>
    walk db m original_module (PerNs.types_ (ModuleDef.module original_module)) path.segments
  | PathKind.plain =>
    match path.segments with
    | [] => (PerNs.none, ReachedFixedPoint.yes)
    | segment :: rest =>
      walk db m original_module (resolve_name_in_module m original_module segment) rest
  | PathKind.super_ =>
    match original_module.parent db with
    | some p => walk db m original_module (PerNs.types_ (ModuleDef.module p)) path.segments
    | Option.none => (PerNs.none, ReachedFixedPoint.yes)
  | PathKind.abs =>
    match path.segments with
    | [] => (PerNs.none, ReachedFixedPoint.yes)
    | segment :: rest =>
      match lookupName m.extern_prelude segment with
      | some d => walk db m original_module (PerNs.types_ d) rest
      | Option.none => (PerNs.none, ReachedFixedPoint.no)

/-- The method `ItemMap::resolve_path`: drop the fixed-point flag. -/
def resolve_path (db : Db) (m : ItemMap) (original_module : Module)
    (path : Path) : PerNs ModuleDef :=
  (resolve_path_fp db m original_module path).fst

/-- The `ImportData { path, alias, is_glob, is_extern_crate }` record (`alias` is a Lean
command name, hence `alias_`). -/
structure ImportData where
  path : Path
  alias_ : Option Name
  is_glob : Bool
  is_extern_crate : Bool
deriving DecidableEq, Repr

/-- The `LoweredModule { declarations, imports }` record, the per-module input facts. -/
structure LoweredModule where
  declarations : List (Name × PerNs ModuleDef)
  imports : List (ImportId × ImportData)
deriving DecidableEq, Repr

instance : Inhabited LoweredModule := ⟨⟨[], []⟩⟩

/-- The resolver's input: `FxHashMap<ModuleId, Arc<LoweredModule>>`, as an
association list whose order is the (hash-)iteration order of the map. -/
abbrev Input := List (ModuleId × LoweredModule)

/-- The mutable fields of `struct Resolver` (the borrowed `db`/`input` are
passed separately). -/
structure ResolverState where
  krate : CrateId
  processed_imports : List (ModuleId × ImportId)
  glob_imports : List (ModuleId × List (ModuleId × ImportId))
  result : ItemMap
deriving DecidableEq, Repr

/-- Replace module `id`'s scope in the item map (`per_module.get_mut(id)` plus
the in-place mutation; the target module is always populated, so the source's
unwrap cannot fire). -/
def ItemMap.setScope (m : ItemMap) (id : ModuleId) (scope : ModuleScope) : ItemMap :=
  { m with per_module := insertName m.per_module id scope }

/-- One iteration of the slot-filling loop body of
`Resolver::update_recursive`: given the existing entry (after
`entry(name).or_default()`) and the incoming resolution, fill each namespace
slot only if it is currently empty, tagging `imp.or res.imp` as provenance,
and report whether a slot changed. -/
def fillEntry (imp : Option ImportId) (existing res : Resolution) : Resolution × Bool :=
  let step1 : Resolution × Bool :=
    if existing.defn.types.isNone && res.defn.types.isSome then
      (⟨⟨res.defn.types, existing.defn.values⟩, imp.or res.imp⟩, true)
    else (existing, false)
  let step2 : Resolution × Bool :=
    if step1.fst.defn.values.isNone && res.defn.values.isSome then
      (⟨⟨step1.fst.defn.types, res.defn.values⟩, imp.or res.imp⟩, true)
    else (step1.fst, false)
  (step2.fst, step1.snd || step2.snd)

/-- The slot-filling loop of `Resolver::update_recursive`, as recursion over
the batch, threading the `changed` flag.  `entry(name).or_default()` inserts
a default entry even when no slot is filled. -/
def updateScopeItems (imp : Option ImportId) :
    List (Name × Resolution) → List (Name × Resolution) → Bool →
    List (Name × Resolution) × Bool
  | [], items, changed => (items, changed)
  | nr :: rest, items, changed =>
    let fill := fillEntry imp ((lookupName items nr.fst).getD default) nr.snd
    updateScopeItems imp rest (insertName items nr.fst fill.fst) (changed || fill.snd)

/-- The method `Resolver::update_recursive`.  The source counts `depth` upward and panics
when `depth > 100`; here `gas = 101 - depth` counts down, so the panic fires
exactly when `gas = 0` and recursive propagation passes `gas - 1`. -/
def update_recursive (db : Db) : Nat → ModuleId → Option ImportId →
    List (Name × Resolution) → ResolverState → Except String ResolverState
  | 0, _, _, _, _ => Except.error "infinite recursion in glob imports!"
  | gas + 1, module_id, imp, resolutions, st =>
    let step := updateScopeItems imp resolutions (st.result.scope module_id).items false
    let st1 : ResolverState := { st with result := st.result.setScope module_id ⟨step.fst⟩ }
    if !step.snd then Except.ok st1
    else
      let globs := (lookupName st1.glob_imports module_id).getD []
      globs.foldlM
        (fun st2 gi => update_recursive db gas gi.fst (some gi.snd) resolutions st2)
        st1

/-- The method `Resolver::update` (entry at depth 0, i.e. gas 101). -/
def update (db : Db) (st : ResolverState) (module_id : ModuleId)
    (imp : Option ImportId) (resolutions : List (Name × Resolution)) :
    Except String ResolverState :=
  update_recursive db 101 module_id imp resolutions st

/-- The method `Resolver::populate_extern_prelude`: one Types-namespace root-module entry
per crate dependency. -/
def populate_extern_prelude (db : Db) (st : ResolverState) : ResolverState :=
  { st with
    result :=
      { st.result with
        extern_prelude :=
          (db.dependencies st.krate).foldl
            (fun ep dep =>
              match db.root_module dep.snd with
              | some module => insertName ep dep.fst (ModuleDef.module module)
              | Option.none => ep)
            st.result.extern_prelude } }

/-- First seeding loop of `Resolver::populate_module`: a placeholder entry
(`def: none`) per non-glob import, keyed by alias or last path segment. -/
def seedImportPlaceholders (imports : List (ImportId × ImportData))
    (items : List (Name × Resolution)) : List (Name × Resolution) :=
  imports.foldl
    (fun items i =>
      match i.snd.path.segments.getLast? with
      | some last_segment =>
        if !i.snd.is_glob then
          let name := i.snd.alias_.getD last_segment
          insertName items name ⟨PerNs.none, some i.fst⟩
        else items
      | Option.none => items)
    items

/-- Second seeding loop of `Resolver::populate_module`: directly declared
items, as already resolved by lowering. -/
def seedDeclarations (declarations : List (Name × PerNs ModuleDef))
    (items : List (Name × Resolution)) : List (Name × Resolution) :=
  declarations.foldl
    (fun items d => insertName items d.fst ⟨d.snd, Option.none⟩)
    items

/-- Third seeding loop of `Resolver::populate_module`: one Types-namespace
entry per direct child module (`add_module_item`). -/
def seedChildModules (db : Db) (krate : CrateId) (module_id : ModuleId)
    (items : List (Name × Resolution)) : List (Name × Resolution) :=
  (db.children krate module_id).foldl
    (fun items c =>
      insertName items c.fst
        ⟨PerNs.types_ (ModuleDef.module ⟨krate, c.snd⟩), Option.none⟩)
    items

/-- The method `Resolver::populate_module`: seed one module's scope and store it. -/
def populate_module (db : Db) (st : ResolverState) (module_id : ModuleId)
    (input : LoweredModule) : ResolverState :=
  let module_items :=
    seedChildModules db st.krate module_id
      (seedDeclarations input.declarations
        (seedImportPlaceholders input.imports []))
  { st with
    result := { st.result with per_module := insertName st.result.per_module module_id ⟨module_items⟩ } }

/-- The method `Resolver::resolve_import`. -/
def resolve_import (db : Db) (st : ResolverState) (module_id : ModuleId)
    (import_id : ImportId) (data : ImportData) :
    Except String (ResolverState × ReachedFixedPoint) :=
  let original_module : Module := ⟨st.krate, module_id⟩
  let resolved := resolve_path_fp db st.result original_module data.path
  let defn := resolved.fst
  let reached_fixedpoint := resolved.snd
  if reached_fixedpoint ≠ ReachedFixedPoint.yes then
    Except.ok (st, reached_fixedpoint)
  else if data.is_glob then
    match defn.take_types with
    | some (ModuleDef.module m) =>
      if m.krate ≠ st.krate then
        -- glob import from another crate: copy its (final) scope once
        let item_map := db.item_map m.krate
        let items := (item_map.scope m.module_id).items
        (update db st module_id (some import_id) items).map
          (fun st1 => (st1, reached_fixedpoint))
      else
        -- glob import from this crate: initial copy, then register the glob
        -- edge for later propagation
        let items := (st.result.scope m.module_id).items
        (update db st module_id (some import_id) items).map
          (fun st1 =>
            let edges := (lookupName st1.glob_imports m.module_id).getD []
            ({ st1 with
                glob_imports :=
                  insertName st1.glob_imports m.module_id
                    (edges ++ [(module_id, import_id)]) },
              reached_fixedpoint))
    | some (ModuleDef.enum e) =>
      -- glob import from an enum: import all named variants
      let resolutions :=
        (db.variants e).filterMap
          (fun v =>
            v.snd.map
              (fun name =>
                (name,
                  (⟨PerNs.both (ModuleDef.variant v.fst) (ModuleDef.enum e),
                    some import_id⟩ : Resolution))))
      (update db st module_id (some import_id) resolutions).map
        (fun st1 => (st1, reached_fixedpoint))
    | some _ => Except.ok (st, reached_fixedpoint)
    | Option.none => Except.ok (st, reached_fixedpoint)
  else
    match data.path.segments.getLast? with
    | Option.none =>
      -- `import.path.segments.last().unwrap()` on an empty segment list
      Except.error "called Option unwrap on a None value"
    | some last_segment =>
      let name := data.alias_.getD last_segment
      -- extern crates in the crate root add to the extern prelude
      let st :=
        match db.root_module st.krate with
        | some root_module =>
          if data.is_extern_crate && module_id = root_module.module_id then
            match defn.take_types with
            | some d =>
              { st with
                result :=
                  { st.result with
                    extern_prelude := insertName st.result.extern_prelude name d } }
            | Option.none => st
          else st
        | Option.none => st
      (update db st module_id Option.none [(name, ⟨defn, some import_id⟩)]).map
        (fun st1 => (st1, reached_fixedpoint))

/-- The loop body of `Resolver::resolve_imports`: walk this module's import
list, skipping already-processed imports and marking an import processed
exactly when its resolution reports fixed point Yes. -/
def resolve_imports_go (db : Db) (module_id : ModuleId) :
    List (ImportId × ImportData) → ResolverState → Except String ResolverState
  | [], st => Except.ok st
  | (import_id, data) :: rest, st =>
    if (module_id, import_id) ∈ st.processed_imports then
      resolve_imports_go db module_id rest st
    else
      match resolve_import db st module_id import_id data with
      | Except.error e => Except.error e
      | Except.ok (st1, fp) =>
        let st2 :=
          if fp = ReachedFixedPoint.yes then
            { st1 with processed_imports := st1.processed_imports ++ [(module_id, import_id)] }
          else st1
        resolve_imports_go db module_id rest st2

/-- The method `Resolver::resolve_imports` for one module (`self.input[&module_id]`). -/
def resolve_imports (db : Db) (input : Input) (st : ResolverState)
    (module_id : ModuleId) : Except String ResolverState :=
  resolve_imports_go db module_id ((lookupName input module_id).getD default).imports st

/-- One sweep of the fixed-point loop: resolve every module's pending imports
in the input's iteration order.  (The source also polls `check_canceled`
before each module; cancellation is outside this model.) -/
def sweep (db : Db) (input : Input) : List (ModuleId × LoweredModule) →
    ResolverState → Except String ResolverState
  | [], st => Except.ok st
  | (module_id, _) :: rest, st =>
    match resolve_imports db input st module_id with
    | Except.error e => Except.error e
    | Except.ok st1 => sweep db input rest st1

/-- The sweep loop of `Resolver::resolve`.  The source counts `iter` upward
and panics when `iter > 1000`; here `gas = 1000 - iter` counts down from 1000
(so the 1000 permitted sweeps run, and the panic fires when gas is exhausted).
The loop stops when a full sweep processes zero new imports. -/
def resolve_loop (db : Db) (input : Input) : Nat → ResolverState →
    Except String ResolverState
  | 0, _ => Except.error "failed to reach fixedpoint after 1000 iters"
  | gas + 1, st =>
    let processed_imports_count := st.processed_imports.length
    match sweep db input input st with
    | Except.error e => Except.error e
    | Except.ok st1 =>
      if processed_imports_count = st1.processed_imports.length then
        -- no new imports resolved
        Except.ok st1
      else resolve_loop db input gas st1

/-- The method `Resolver::resolve`: seed the extern prelude and every module's scope,
then sweep to a fixed point. -/
def Resolver.resolve (db : Db) (krate : CrateId) (input : Input) :
    Except String ItemMap :=
  let st : ResolverState := ⟨krate, [], [], ⟨[], []⟩⟩
  let st := populate_extern_prelude db st
  let st := input.foldl (fun st mi => populate_module db st mi.fst mi.snd) st
  (resolve_loop db input 1000 st).map (fun st1 => st1.result)

/-- The Types-namespace slot of a name in a scope's item list. -/
def itemT (items : List (Name × Resolution)) (n : Name) : Option ModuleDef :=
  match lookupName items n with
  | some r => r.defn.types
  | Option.none => Option.none

/-- The Values-namespace slot of a name in a scope's item list. -/
def itemV (items : List (Name × Resolution)) (n : Name) : Option ModuleDef :=
  match lookupName items n with
  | some r => r.defn.values
  | Option.none => Option.none

/-- The `(module, name, Types)` slot of an item map. -/
def slotT (m : ItemMap) (id : ModuleId) (n : Name) : Option ModuleDef :=
  itemT (m.scope id).items n

/-- The `(module, name, Values)` slot of an item map. -/
def slotV (m : ItemMap) (id : ModuleId) (n : Name) : Option ModuleDef :=
  itemV (m.scope id).items n

/-- What one `update_recursive` call preserves: filled slots keep their
definition, and the fields other than the scopes (`krate`,
`processed_imports`, `glob_imports`, `extern_prelude`) are untouched. -/
def StPres (a b : ResolverState) : Prop :=
  (∀ id n d,
    (slotT a.result id n = some d → slotT b.result id n = some d) ∧
    (slotV a.result id n = some d → slotV b.result id n = some d)) ∧
  b.krate = a.krate ∧
  b.processed_imports = a.processed_imports ∧
  b.glob_imports = a.glob_imports ∧
  b.result.extern_prelude = a.result.extern_prelude

/-! Concrete scenarios used by counterexamples and witnesses. -/

/-- A one-crate database with no children, dependencies or variants. -/
def db8 : Db :=
  { dependencies := fun _ => []
    root_module := fun k => if k = 0 then some ⟨0, 0⟩ else Option.none
    children := fun _ _ => []
    parent := fun _ _ => Option.none
    crate_root := fun _ _ => 0
    item_map := fun _ => ⟨[], []⟩
    variants := fun _ => [] }

/-- One root module containing only `use bad::Thing;` (`bad` = 2, `Thing` = 3,
both undeclared). -/
def input8 : Input :=
  [(0, ⟨[], [(0, ⟨⟨PathKind.plain, [2, 3]⟩, Option.none, false, false⟩)]⟩)]

/-- The item map `Resolver::resolve` produces for `input8`: the import stays a
placeholder (`def: none`) and nothing aborts. -/
def map8 : ItemMap := ⟨[], [(0, ⟨[(3, ⟨PerNs.none, some 0⟩)]⟩)]⟩

/-- Module tree for the order-dependence scenario: root 0 with children
`a` = 10 ↦ 1, `b` = 11 ↦ 2, `m` = 12 ↦ 3. -/
def db6 : Db :=
  { dependencies := fun _ => []
    root_module := fun k => if k = 0 then some ⟨0, 0⟩ else Option.none
    children := fun _ mid => if mid = 0 then [(10, 1), (11, 2), (12, 3)] else []
    parent := fun _ mid => if mid = 0 then Option.none else some 0
    crate_root := fun _ _ => 0
    item_map := fun _ => ⟨[], []⟩
    variants := fun _ => [] }

/-- Module `m`'s imports: `use crate::a::S;` then `use crate::b::S;`
(`S` = 20); `a::S` and `b::S` are different definitions. -/
def imports6 : List (ImportId × ImportData) :=
  [(0, ⟨⟨PathKind.crate, [10, 20]⟩, Option.none, false, false⟩),
   (1, ⟨⟨PathKind.crate, [11, 20]⟩, Option.none, false, false⟩)]

/-- Modules: `a` declares `S` as definition 100, `b` declares `S` as definition 101,
`m` holds both imports in declaration order. -/
def inputA : Input :=
  [(0, ⟨[], []⟩),
   (1, ⟨[(20, PerNs.types_ (ModuleDef.other 100))], []⟩),
   (2, ⟨[(20, PerNs.types_ (ModuleDef.other 101))], []⟩),
   (3, ⟨[], imports6⟩)]

/-- The same modules with `m`'s two pending imports iterated in the opposite
order within the sweep. -/
def inputB : Input :=
  [(0, ⟨[], []⟩),
   (1, ⟨[(20, PerNs.types_ (ModuleDef.other 100))], []⟩),
   (2, ⟨[(20, PerNs.types_ (ModuleDef.other 101))], []⟩),
   (3, ⟨[], imports6.reverse⟩)]

/-- A database whose enum 7 has a single variant 0 named 5. -/
def dbE : Db :=
  { dependencies := fun _ => []
    root_module := fun k => if k = 0 then some ⟨0, 0⟩ else Option.none
    children := fun _ _ => []
    parent := fun _ _ => Option.none
    crate_root := fun _ _ => 0
    item_map := fun _ => ⟨[], []⟩
    variants := fun e => if e = 7 then [(0, some 5)] else [] }

/-- A scope in which name 1 is enum 7 (for walking `E::bad::x`-style paths). -/
def mapE : ItemMap :=
  ⟨[], [(0, ⟨[(1, ⟨PerNs.types_ (ModuleDef.enum 7), Option.none⟩)]⟩)]⟩

/-- Module 0's scope holds a pending-import placeholder for name 5 (empty
`def`), and the extern prelude also has an entry for name 5. -/
def map3 : ItemMap :=
  ⟨[(5, ModuleDef.other 9)], [(0, ⟨[(5, ⟨PerNs.none, some 0⟩)]⟩)]⟩

/-- Module tree for the seeding counterexample: module 0 has a child module
also named 20 (mapped to module 1), while module 0 declares an item named
20. -/
def db1c : Db :=
  { dependencies := fun _ => []
    root_module := fun k => if k = 0 then some ⟨0, 0⟩ else Option.none
    children := fun _ mid => if mid = 0 then [(20, 1)] else []
    parent := fun _ _ => Option.none
    crate_root := fun _ _ => 0
    item_map := fun _ => ⟨[], []⟩
    variants := fun _ => [] }

/-- Declarations of module 0 in the seeding counterexample: item 20 is
definition 100. -/
def decls1 : List (Name × PerNs ModuleDef) := [(20, PerNs.types_ (ModuleDef.other 100))]

/-- A state whose module 0 already has name 1 resolved (Types slot filled with
definition 5). -/
def stW : ResolverState :=
  ⟨0, [], [], ⟨[], [(0, ⟨[(1, ⟨PerNs.types_ (ModuleDef.other 5), Option.none⟩)]⟩)]⟩⟩

/-- A batch trying to overwrite the filled Types slot of name 1 (and to fill
its empty Values slot). -/
def batchW : List (Name × Resolution) :=
  [(1, ⟨PerNs.both (ModuleDef.other 9) (ModuleDef.other 9), some 3⟩)]

/-- What `update` makes of `stW` and `batchW`: the Types slot keeps definition
5, only the Values slot is filled. -/
def stW' : ResolverState :=
  ⟨0, [], [],
    ⟨[], [(0, ⟨[(1, ⟨⟨some (ModuleDef.other 5), some (ModuleDef.other 9)⟩, some 3⟩)]⟩)]⟩⟩

end Nameres

deriving instance DecidableEq for Except

namespace Nameres

theorem lookup_insertName {α : Type} (l : List (Name × α)) (k n : Name) (v : α) :
    lookupName (insertName l k v) n = if k = n then some v else lookupName l n := by
  induction l with
  | nil =>
    by_cases h : k = n <;> simp [insertName, lookupName, h]
  | cons p t ih =>
    obtain ⟨a, b⟩ := p
    by_cases e1 : a = k
    · subst e1
      by_cases e2 : a = n <;> simp [insertName, lookupName, e2]
    · by_cases e2 : a = n
      · have e3 : ¬ k = n := fun h => e1 (e2.trans h.symm)
        have e4 : ¬ n = k := fun h => e1 (e2.trans h)
        simp [insertName, e1, lookupName, e2, e3, e4]
      · simp [insertName, e1, lookupName, e2, ih]

theorem itemT_insertName (items : List (Name × Resolution)) (k : Name) (r : Resolution)
    (n : Name) :
    itemT (insertName items k r) n = if k = n then r.defn.types else itemT items n := by
  by_cases h : k = n <;> simp [itemT, lookup_insertName, h]

theorem itemV_insertName (items : List (Name × Resolution)) (k : Name) (r : Resolution)
    (n : Name) :
    itemV (insertName items k r) n = if k = n then r.defn.values else itemV items n := by
  by_cases h : k = n <;> simp [itemV, lookup_insertName, h]

/-- Filling via `fillEntry` never changes a filled Types slot. -/
theorem fillEntry_types (imp : Option ImportId) (existing res : Resolution)
    (d : ModuleDef) (h : existing.defn.types = some d) :
    (fillEntry imp existing res).fst.defn.types = some d := by
  simp only [fillEntry, h, Option.isNone_some, Bool.false_and, Bool.false_eq_true, if_false]
  split <;> simp [h]

/-- Filling via `fillEntry` never changes a filled Values slot. -/
theorem fillEntry_values (imp : Option ImportId) (existing res : Resolution)
    (d : ModuleDef) (h : existing.defn.values = some d) :
    (fillEntry imp existing res).fst.defn.values = some d := by
  simp only [fillEntry]
  split
  · simp [h]
  · simp [h]

/-- The slot-filling loop never overwrites a filled namespace slot: whatever
definition a slot holds before `updateScopeItems`, it still holds after. -/
theorem updateScopeItems_preserves (imp : Option ImportId) :
    ∀ (res : List (Name × Resolution)) (items : List (Name × Resolution)) (changed : Bool)
      (n : Name) (d : ModuleDef),
      (itemT items n = some d → itemT (updateScopeItems imp res items changed).fst n = some d) ∧
      (itemV items n = some d → itemV (updateScopeItems imp res items changed).fst n = some d) := by
  intro res
  induction res with
  | nil =>
    intro items changed n d
    simp [updateScopeItems]
  | cons nr rest ih =>
    intro items changed n d
    simp only [updateScopeItems]
    by_cases hn : nr.fst = n
    · subst hn
      cases hl : lookupName items nr.fst with
      | none =>
        constructor
        · intro h; simp [itemT, hl] at h
        · intro h; simp [itemV, hl] at h
      | some r =>
        constructor
        · intro h
          have hr : r.defn.types = some d := by simpa [itemT, hl] using h
          apply (ih _ _ nr.fst d).1
          rw [itemT_insertName, if_pos rfl]
          simpa using fillEntry_types imp r nr.snd d hr
        · intro h
          have hr : r.defn.values = some d := by simpa [itemV, hl] using h
          apply (ih _ _ nr.fst d).2
          rw [itemV_insertName, if_pos rfl]
          simpa using fillEntry_values imp r nr.snd d hr
    · constructor
      · intro h
        apply (ih _ _ n d).1
        rw [itemT_insertName, if_neg hn]
        exact h
      · intro h
        apply (ih _ _ n d).2
        rw [itemV_insertName, if_neg hn]
        exact h


theorem scope_setScope (m : ItemMap) (id id' : ModuleId) (s : ModuleScope) :
    (m.setScope id s).scope id' = if id = id' then s else m.scope id' := by
  by_cases h : id = id' <;> simp [ItemMap.setScope, ItemMap.scope, lookup_insertName, h]

theorem stPres_refl (s : ResolverState) : StPres s s :=
  ⟨fun _ _ _ => ⟨fun h => h, fun h => h⟩, rfl, rfl, rfl, rfl⟩

theorem stPres_trans {a b c : ResolverState} (h1 : StPres a b) (h2 : StPres b c) :
    StPres a c := by
  obtain ⟨s1, k1, p1, g1, e1⟩ := h1
  obtain ⟨s2, k2, p2, g2, e2⟩ := h2
  refine ⟨fun id n d => ⟨?_, ?_⟩, k2.trans k1, p2.trans p1, g2.trans g1, e2.trans e1⟩
  · intro h
    exact (s2 id n d).1 ((s1 id n d).1 h)
  · intro h
    exact (s2 id n d).2 ((s1 id n d).2 h)

/-- A `foldlM` over `Except` respects any reflexive transitive relation that
every successful step respects. -/
theorem foldlM_rel {A S : Type} (R : S → S → Prop) (f : S → A → Except String S)
    (hrefl : ∀ s, R s s) (htrans : ∀ a b c, R a b → R b c → R a c)
    (hf : ∀ s a s1, f s a = Except.ok s1 → R s s1) :
    ∀ (l : List A) (s s1 : S), l.foldlM f s = Except.ok s1 → R s s1 := by
  intro l
  induction l with
  | nil =>
    intro s s1 h
    simp only [List.foldlM_nil] at h
    cases h
    exact hrefl s
  | cons a t ih =>
    intro s s1 h
    rw [List.foldlM_cons] at h
    cases hf0 : f s a with
    | error e =>
      rw [hf0] at h
      exact Except.noConfusion h
    | ok s2 =>
      rw [hf0] at h
      exact htrans s s2 s1 (hf s a s2 hf0) (ih s2 s1 h)

/-- One `update_recursive` call (at any remaining depth budget), when it
returns normally, preserves every filled scope slot and leaves `krate`,
`processed_imports`, `glob_imports` and the extern prelude untouched. -/
theorem update_recursive_pres (db : Db) :
    ∀ (gas : Nat) (mid : ModuleId) (imp : Option ImportId)
      (res : List (Name × Resolution)) (st st1 : ResolverState),
      update_recursive db gas mid imp res st = Except.ok st1 → StPres st st1 := by
  intro gas
  induction gas with
  | zero =>
    intro mid imp res st st1 h
    simp [update_recursive] at h
  | succ gas ih =>
    intro mid imp res st st1 h
    simp only [update_recursive] at h
    have hpres1 : StPres st
        { st with
          result :=
            st.result.setScope mid
              ⟨(updateScopeItems imp res (st.result.scope mid).items false).fst⟩ } := by
      refine ⟨fun id n d => ⟨?_, ?_⟩, rfl, rfl, rfl, rfl⟩
      · intro hs
        simp only [slotT, scope_setScope]
        by_cases hid : mid = id
        · subst hid
          rw [if_pos rfl]
          exact (updateScopeItems_preserves imp res (st.result.scope mid).items false n d).1 hs
        · rw [if_neg hid]
          exact hs
      · intro hs
        simp only [slotV, scope_setScope]
        by_cases hid : mid = id
        · subst hid
          rw [if_pos rfl]
          exact (updateScopeItems_preserves imp res (st.result.scope mid).items false n d).2 hs
        · rw [if_neg hid]
          exact hs
    by_cases hc : (updateScopeItems imp res (st.result.scope mid).items false).snd
    · rw [hc] at h
      simp only [Bool.not_true, Bool.false_eq_true, if_false] at h
      exact stPres_trans hpres1
        (foldlM_rel StPres _ stPres_refl (fun a b c hab hbc => stPres_trans hab hbc)
          (fun s a s1 hstep => ih a.fst (some a.snd) res s s1 hstep) _ _ _ h)
    · rw [Bool.not_eq_true] at hc
      rw [hc] at h
      simp only [Bool.not_false, if_true] at h
      cases h
      exact hpres1

/-- Splitting a successful `Except.map`. -/
theorem except_map_ok {A B : Type} (f : A → B) (x : Except String A) (b : B)
    (h : x.map f = Except.ok b) : ∃ u, x = Except.ok u ∧ f u = b := by
  cases x with
  | error e => exact Except.noConfusion h
  | ok u =>
    refine ⟨u, rfl, ?_⟩
    injection h

/-- The function `resolve_import` never touches `processed_imports`. -/
theorem resolve_import_processed (db : Db) (st : ResolverState) (mid : ModuleId)
    (iid : ImportId) (data : ImportData) (pr : ResolverState × ReachedFixedPoint)
    (h : resolve_import db st mid iid data = Except.ok pr) :
    pr.fst.processed_imports = st.processed_imports := by
  simp only [resolve_import] at h
  split at h
  · injection h with h1
    subst h1
    rfl
  · split at h
    · -- glob import
      split at h
      · -- glob from a module: cross-crate or same-crate copy
        split at h
        · obtain ⟨u, hu, hf⟩ := except_map_ok _ _ _ h
          subst hf
          exact (update_recursive_pres db 101 _ _ _ _ _ hu).2.2.1
        · obtain ⟨u, hu, hf⟩ := except_map_ok _ _ _ h
          subst hf
          exact (update_recursive_pres db 101 _ _ _ _ _ hu).2.2.1
      · -- glob from an enum
        obtain ⟨u, hu, hf⟩ := except_map_ok _ _ _ h
        subst hf
        exact (update_recursive_pres db 101 _ _ _ _ _ hu).2.2.1
      · injection h with h1
        subst h1
        rfl
      · injection h with h1
        subst h1
        rfl
    · -- non-glob import
      split at h
      · exact Except.noConfusion h
      · obtain ⟨u, hu, hf⟩ := except_map_ok _ _ _ h
        subst hf
        split at hu
        · split at hu
          · split at hu
            · exact (update_recursive_pres db 101 _ _ _ _ _ hu).2.2.1
            · exact (update_recursive_pres db 101 _ _ _ _ _ hu).2.2.1
          · exact (update_recursive_pres db 101 _ _ _ _ _ hu).2.2.1
        · exact (update_recursive_pres db 101 _ _ _ _ _ hu).2.2.1

/-- Through the per-module import loop, `processed_imports` only grows. -/
theorem resolve_imports_go_grows (db : Db) (mid : ModuleId) :
    ∀ (l : List (ImportId × ImportData)) (st st1 : ResolverState),
      resolve_imports_go db mid l st = Except.ok st1 →
      ∀ p, p ∈ st.processed_imports → p ∈ st1.processed_imports := by
  intro l
  induction l with
  | nil =>
    intro st st1 h p hp
    simp only [resolve_imports_go] at h
    cases h
    exact hp
  | cons i rest ih =>
    obtain ⟨iid, idata⟩ := i
    intro st st1 h p hp
    simp only [resolve_imports_go] at h
    split at h
    · exact ih st st1 h p hp
    · split at h
      · exact Except.noConfusion h
      next s1 fp heq =>
        have hproc : s1.processed_imports = st.processed_imports :=
          resolve_import_processed db st mid iid idata (s1, fp) heq
        by_cases hfp : fp = ReachedFixedPoint.yes
        · subst hfp
          rw [if_pos rfl] at h
          exact ih _ st1 h p (by simp [hproc, hp])
        · rw [if_neg hfp] at h
          exact ih _ st1 h p (hproc ▸ hp)

/-- Through one sweep, `processed_imports` only grows. -/
theorem sweep_grows (db : Db) (input : Input) :
    ∀ (mods : List (ModuleId × LoweredModule)) (st st1 : ResolverState),
      sweep db input mods st = Except.ok st1 →
      ∀ p, p ∈ st.processed_imports → p ∈ st1.processed_imports := by
  intro mods
  induction mods with
  | nil =>
    intro st st1 h p hp
    simp only [sweep] at h
    cases h
    exact hp
  | cons mi rest ih =>
    obtain ⟨mid, lm⟩ := mi
    intro st st1 h p hp
    simp only [sweep] at h
    split at h
    · exact Except.noConfusion h
    next s1 heq =>
      exact ih s1 st1 h p (resolve_imports_go_grows db mid _ st s1 heq p hp)

/-- Within one module's import loop, every newly processed import is one of
the module's actual pending imports, processed from exactly the state the
loop reached after its actual prefix: the list splits as
`l1 ++ (iid, d) :: l2`, re-running the loop on the prefix `l1` from the same
start state yields a state `s` in which `(mid, iid)` is still unprocessed,
`resolve_import` from that very state on the actual data `d` reports fixed
point Yes, and the loop continues on `l2` from the state with `(mid, iid)`
appended. -/
theorem resolve_imports_go_marks (db : Db) (mid : ModuleId) :
    ∀ (l : List (ImportId × ImportData)) (st st1 : ResolverState),
      resolve_imports_go db mid l st = Except.ok st1 →
      ∀ p, p ∈ st1.processed_imports → p ∈ st.processed_imports ∨
        (p.fst = mid ∧ ∃ l1 d l2 s s2,
          l = l1 ++ (p.snd, d) :: l2 ∧
          resolve_imports_go db mid l1 st = Except.ok s ∧
          (mid, p.snd) ∉ s.processed_imports ∧
          resolve_import db s mid p.snd d = Except.ok (s2, ReachedFixedPoint.yes) ∧
          resolve_imports_go db mid l2
              { s2 with processed_imports := s2.processed_imports ++ [(mid, p.snd)] } =
            Except.ok st1) := by
  intro l
  induction l with
  | nil =>
    intro st st1 h p hp
    simp only [resolve_imports_go] at h
    cases h
    exact Or.inl hp
  | cons i rest ih =>
    obtain ⟨iid, idata⟩ := i
    intro st st1 h p hp
    simp only [resolve_imports_go] at h
    split at h
    next hmem =>
      rcases ih st st1 h p hp with hin |
        ⟨hfst, l1, d, l2, s, s2, hsplit, hpre, hnot, hres, hcont⟩
      · exact Or.inl hin
      · refine Or.inr ⟨hfst, (iid, idata) :: l1, d, l2, s, s2, by rw [hsplit]; rfl, ?_,
          hnot, hres, hcont⟩
        simp only [resolve_imports_go]
        rw [if_pos hmem]
        exact hpre
    next hmem =>
      split at h
      · exact Except.noConfusion h
      next s1 fp heq =>
        have hproc : s1.processed_imports = st.processed_imports :=
          resolve_import_processed db st mid iid idata (s1, fp) heq
        by_cases hfp : fp = ReachedFixedPoint.yes
        · subst hfp
          rw [if_pos rfl] at h
          rcases ih _ st1 h p hp with hin |
            ⟨hfst, l1, d, l2, s, s2, hsplit, hpre, hnot, hres, hcont⟩
          · simp only [List.mem_append, List.mem_singleton] at hin
            rcases hin with hin | hin
            · exact Or.inl (hproc ▸ hin)
            · subst hin
              exact Or.inr ⟨rfl, [], idata, rest, st, s1, rfl, rfl, hmem, heq, h⟩
          · refine Or.inr ⟨hfst, (iid, idata) :: l1, d, l2, s, s2, by rw [hsplit]; rfl, ?_,
              hnot, hres, hcont⟩
            simp only [resolve_imports_go]
            rw [if_neg hmem, heq]
            exact hpre
        · rw [if_neg hfp] at h
          rcases ih _ st1 h p hp with hin |
            ⟨hfst, l1, d, l2, s, s2, hsplit, hpre, hnot, hres, hcont⟩
          · exact Or.inl (hproc ▸ hin)
          · refine Or.inr ⟨hfst, (iid, idata) :: l1, d, l2, s, s2, by rw [hsplit]; rfl, ?_,
              hnot, hres, hcont⟩
            simp only [resolve_imports_go]
            rw [if_neg hmem, heq]
            show resolve_imports_go db mid l1
                (if fp = ReachedFixedPoint.yes then
                  { s1 with processed_imports := s1.processed_imports ++ [(mid, iid)] }
                else s1) = Except.ok s
            rw [if_neg hfp]
            exact hpre

/-- At sweep level, every newly processed import arose in the sweep's step
for its own module, from exactly the state reached after the earlier modules
of the sweep: the module list splits as `mods1 ++ (p.fst, lm) :: mods2`,
re-running the sweep on the prefix from the same start state yields a state
`s` in which `p` is unprocessed, the per-module loop run from `s` on module
`p.fst` produced `p` as processed, and the sweep continues over `mods2`. -/
theorem sweep_marks (db : Db) (input : Input) :
    ∀ (mods : List (ModuleId × LoweredModule)) (st st1 : ResolverState),
      sweep db input mods st = Except.ok st1 →
      ∀ p, p ∈ st1.processed_imports → p ∈ st.processed_imports ∨
        ∃ (mods1 : List (ModuleId × LoweredModule)) (lm : LoweredModule)
          (mods2 : List (ModuleId × LoweredModule)) (s s' : ResolverState),
          mods = mods1 ++ (p.fst, lm) :: mods2 ∧
          sweep db input mods1 st = Except.ok s ∧
          resolve_imports db input s p.fst = Except.ok s' ∧
          p ∉ s.processed_imports ∧ p ∈ s'.processed_imports ∧
          sweep db input mods2 s' = Except.ok st1 := by
  intro mods
  induction mods with
  | nil =>
    intro st st1 h p hp
    simp only [sweep] at h
    cases h
    exact Or.inl hp
  | cons mi rest ih =>
    obtain ⟨mid, lm⟩ := mi
    intro st st1 h p hp
    simp only [sweep] at h
    split at h
    · exact Except.noConfusion h
    next s1 heq =>
      rcases ih s1 st1 h p hp with hin1 |
        ⟨mods1, lm', mods2, s, s', hsplit, hpre, hres, hnot, hin, hcont⟩
      · by_cases hst : p ∈ st.processed_imports
        · exact Or.inl hst
        · rcases resolve_imports_go_marks db mid _ st s1 heq p hin1 with hin0 | ⟨hfst, _⟩
          · exact absurd hin0 hst
          · refine Or.inr ⟨[], lm, rest, st, s1, by rw [hfst]; rfl, by rfl, ?_, hst, hin1, h⟩
            rw [hfst]
            exact heq
      · refine Or.inr ⟨(mid, lm) :: mods1, lm', mods2, s, s', by rw [hsplit]; rfl, ?_,
          hres, hnot, hin, hcont⟩
        simp only [sweep]
        rw [heq]
        exact hpre

/-! The claims. -/

/-- C1 (counterexample): the claim that a `(module, name, namespace)` slot is
never set to two different definitions fails during the initial seeding.
`populate_module` seeds with plain map inserts: when a declared item (here
name 20, definition 100) shares its name with a child module (child 1), the
child-module loop overwrites the Types slot the declaration loop had already
set, with a different definition. -/
theorem claim_C1_counterexample :
    itemT (seedDeclarations decls1 (seedImportPlaceholders [] [])) 20 =
      some (ModuleDef.other 100) ∧
    itemT (seedChildModules db1c 0 0
        (seedDeclarations decls1 (seedImportPlaceholders [] []))) 20 =
      some (ModuleDef.module ⟨0, 1⟩) ∧
    ModuleDef.other 100 ≠ ModuleDef.module ⟨0, 1⟩ ∧
    (populate_module db1c ⟨0, [], [], ⟨[], []⟩⟩ 0 ⟨decls1, []⟩).result.scope 0 =
      ⟨[(20, ⟨PerNs.types_ (ModuleDef.module ⟨0, 1⟩), Option.none⟩)]⟩ := by decide

/-- C1 (amended): during import resolution and glob propagation
(`update`/`update_recursive`), a filled `(module, name, namespace)` slot is
never overwritten: whatever definition it holds when `update_recursive`
starts, it still holds when it returns normally.  During the initial seeding
the property additionally requires declared-item names to be disjoint from
child-module names (placeholders carry empty definitions and cannot conflict);
see the counterexample. -/
theorem claim_C1_amended_update_monotone (db : Db) (gas : Nat) (mid : ModuleId)
    (imp : Option ImportId) (res : List (Name × Resolution)) (st st1 : ResolverState)
    (h : update_recursive db gas mid imp res st = Except.ok st1) (id : ModuleId)
    (n : Name) (d : ModuleDef) :
    (slotT st.result id n = some d → slotT st1.result id n = some d) ∧
    (slotV st.result id n = some d → slotV st1.result id n = some d) :=
  (update_recursive_pres db gas mid imp res st st1 h).1 id n d

/-- C1 (witness): a batch that tries to overwrite a filled Types slot leaves
it unchanged (it only fills the empty Values slot). -/
theorem claim_C1_witness :
    update_recursive db8 101 0 Option.none batchW stW = Except.ok stW' ∧
    slotT stW.result 0 1 = some (ModuleDef.other 5) ∧
    slotT stW'.result 0 1 = some (ModuleDef.other 5) :=
  have h : update_recursive db8 101 0 Option.none batchW stW = Except.ok stW' := by decide
  ⟨h, by decide,
    (claim_C1_amended_update_monotone db8 101 0 Option.none batchW stW stW' h 0 1
      (ModuleDef.other 5)).1 (by decide)⟩

/-- C2 (counterexample): when the missing-variant segment is not the last one,
the claimed "fixed point Yes regardless of whether further segments remain"
fails: for path `e::2::3` (Plain) from module 0, where `e` (name 1) is enum 7
whose only variant is named 5, the result is empty with fixed point No. -/
theorem claim_C2_counterexample :
    resolve_path_fp dbE mapE ⟨0, 0⟩ ⟨PathKind.plain, [1, 2, 3]⟩ =
      (PerNs.none, ReachedFixedPoint.no) ∧
    (resolve_path_fp dbE mapE ⟨0, 0⟩ ⟨PathKind.plain, [1, 2, 3]⟩).snd ≠
      ReachedFixedPoint.yes := by decide

/-- C2 (amended): when a non-final segment has resolved (Types namespace) to
an enum, the next segment is resolved as a variant of that enum: on success
the walk continues from `PerNs::both(variant, enum)`; on failure the result is
empty, with fixed point Yes when the failing variant segment was the last
segment but No when further segments remain (the empty intermediate result
then trips the empty-Types check of the next iteration). -/
theorem claim_C2_amended_enum_segment (db : Db) (m : ItemMap) (om : Module)
    (curr : PerNs ModuleDef) (e : Nat) (segment : Name) (rest : List Name)
    (h : curr.types = some (ModuleDef.enum e)) :
    walk db m om curr (segment :: rest) =
      match db.variant e segment with
      | some v =>
        walk db m om (PerNs.both (ModuleDef.variant v) (ModuleDef.enum e)) rest
      | Option.none =>
        (PerNs.none,
          if rest.isEmpty then ReachedFixedPoint.yes else ReachedFixedPoint.no) := by
  obtain ⟨t, v⟩ := curr
  simp only at h
  subst h
  simp only [walk, PerNs.take_types]
  cases hv : db.variant e segment with
  | none =>
    cases rest with
    | nil => simp [walk]
    | cons r rs => simp [walk, PerNs.none, PerNs.take_types]
  | some w => rfl

/-- C2 (witness): the amended claim at the counterexample's input. -/
theorem claim_C2_witness :
    (PerNs.types_ (ModuleDef.enum 7) : PerNs ModuleDef).types =
      some (ModuleDef.enum 7) ∧
    walk dbE mapE ⟨0, 0⟩ (PerNs.types_ (ModuleDef.enum 7)) [2, 3] =
      (PerNs.none, ReachedFixedPoint.no) :=
  ⟨by decide,
    (claim_C2_amended_enum_segment dbE mapE ⟨0, 0⟩ _ 7 2 [3] (by decide)).trans
      (by decide)⟩

/-- C3 (counterexample): a local scope entry does not always make the prelude
contribute nothing: module 0 has an entry for name 5 (a pending-import
placeholder with empty def), the prelude also has name 5, and
`resolve_name_in_module` returns the prelude's definition, not the local
entry's empty resolution. -/
theorem claim_C3_counterexample :
    (map3.scope 0).get 5 = some ⟨PerNs.none, some 0⟩ ∧
    resolve_name_in_module map3 ⟨0, 0⟩ 5 ≠ (⟨PerNs.none, some 0⟩ : Resolution).defn ∧
    resolve_name_in_module map3 ⟨0, 0⟩ 5 = PerNs.types_ (ModuleDef.other 9) := by decide

/-- C3 (amended): shadowing is per namespace slot, not per entry.  A filled
local Types slot always wins over the prelude; the Values slot is never taken
from the prelude; but when the local entry's Types slot is empty, the prelude
entry (if any) does contribute, even though a local entry exists. -/
theorem claim_C3_amended_shadowing (m : ItemMap) (module : Module) (name : Name) :
    (∀ r d, (m.scope module.module_id).get name = some r → r.defn.types = some d →
      (resolve_name_in_module m module name).types = some d) ∧
    (∀ r, (m.scope module.module_id).get name = some r →
      (resolve_name_in_module m module name).values = r.defn.values) ∧
    (∀ r, (m.scope module.module_id).get name = some r → r.defn.types = Option.none →
      (resolve_name_in_module m module name).types = lookupName m.extern_prelude name) := by
  refine ⟨?_, ?_, ?_⟩
  · intro r d hr hd
    simp [resolve_name_in_module, hr, hd, PerNs.or]
  · intro r hr
    simp only [resolve_name_in_module, hr]
    cases hp : lookupName m.extern_prelude name <;>
      simp [PerNs.or, PerNs.none, PerNs.types_]
  · intro r hr hd
    simp only [resolve_name_in_module, hr, hd]
    cases hp : lookupName m.extern_prelude name <;>
      simp [PerNs.or, PerNs.none, PerNs.types_, hd]

/-- C3 (witness): the amended claim at the counterexample's input. -/
theorem claim_C3_witness :
    (map3.scope 0).get 5 = some (⟨PerNs.none, some 0⟩ : Resolution) ∧
    (resolve_name_in_module map3 ⟨0, 0⟩ 5).values =
      (⟨PerNs.none, some 0⟩ : Resolution).defn.values ∧
    (resolve_name_in_module map3 ⟨0, 0⟩ 5).types = lookupName map3.extern_prelude 5 :=
  have hr : (map3.scope 0).get 5 = some (⟨PerNs.none, some 0⟩ : Resolution) := by decide
  ⟨hr, (claim_C3_amended_shadowing map3 ⟨0, 0⟩ 5).2.1 _ hr,
    (claim_C3_amended_shadowing map3 ⟨0, 0⟩ 5).2.2 _ hr (by decide)⟩

/-- C4: `update_recursive` (i) aborts with the glob-recursion panic exactly
when the depth budget is exhausted (source: depth > 100, i.e. gas 0); (ii) a
batch that fills no slot returns without recursing, leaving every other
module's scope untouched (it propagates to no one); (iii) a batch that filled
at least one slot is recursively re-applied to every module registered in
`glob_imports` as glob-importing this one, tagged with the glob import's id
(`some gi.snd`), one depth level deeper. -/
theorem claim_C4_update_propagation (db : Db) (mid : ModuleId)
    (imp : Option ImportId) (res : List (Name × Resolution)) (st : ResolverState)
    (gas : Nat) :
    (update_recursive db 0 mid imp res st =
      Except.error "infinite recursion in glob imports!") ∧
    ((updateScopeItems imp res (st.result.scope mid).items false).snd = false →
      (update_recursive db (gas + 1) mid imp res st =
        Except.ok
          { st with
            result :=
              st.result.setScope mid
                ⟨(updateScopeItems imp res (st.result.scope mid).items false).fst⟩ } ∧
      ∀ st1, update_recursive db (gas + 1) mid imp res st = Except.ok st1 →
        ∀ id, id ≠ mid → st1.result.scope id = st.result.scope id)) ∧
    ((updateScopeItems imp res (st.result.scope mid).items false).snd = true →
      update_recursive db (gas + 1) mid imp res st =
        ((lookupName st.glob_imports mid).getD []).foldlM
          (fun st2 gi => update_recursive db gas gi.fst (some gi.snd) res st2)
          { st with
            result :=
              st.result.setScope mid
                ⟨(updateScopeItems imp res (st.result.scope mid).items false).fst⟩ }) := by
  refine ⟨rfl, ?_, ?_⟩
  · intro hc
    constructor
    · simp only [update_recursive, hc, Bool.not_false, if_true]
    · intro st1 h1 id hid
      simp only [update_recursive, hc, Bool.not_false, if_true] at h1
      cases h1
      rw [scope_setScope]
      exact if_neg (fun hh => hid hh.symm)
  · intro hc
    simp only [update_recursive, hc, Bool.not_true, Bool.false_eq_true, if_false]

/-- C4 (witness): the cap aborts at gas 0, and an empty batch changes nothing
and propagates to no one. -/
theorem claim_C4_witness :
    update_recursive db8 0 0 Option.none [] stW =
      Except.error "infinite recursion in glob imports!" ∧
    (updateScopeItems Option.none ([] : List (Name × Resolution))
      (stW.result.scope 0).items false).snd = false ∧
    update_recursive db8 1 0 Option.none [] stW =
      Except.ok
        { stW with
          result :=
            stW.result.setScope 0
              ⟨(updateScopeItems Option.none [] (stW.result.scope 0).items false).fst⟩ } :=
  ⟨(claim_C4_update_propagation db8 0 Option.none [] stW 0).1, by decide,
    ((claim_C4_update_propagation db8 0 Option.none [] stW 0).2.1 (by decide)).1⟩

/-- C5: the sweep loop (i) aborts with the fixed-point panic when the sweep
budget (1000 in `Resolver::resolve`) is exhausted; (ii) otherwise runs one
sweep and stops exactly when it processed zero new imports (same
`processed_imports` count), else loops; (iii) through a sweep the processed
set only grows; (iv) within a module's import loop, every newly processed
entry `(mid, iid)` is one of the module's actual pending imports, resolved
from exactly the state the loop reached after the list's actual prefix, still
unprocessed there, with `resolve_import` from that very state on the actual
data reporting fixed point Yes before the insertion; (v) at sweep
level, every newly processed import arose in the sweep's step for its own
module, from the state reached after the sweep's earlier modules. -/
theorem claim_C5_sweep_loop :
    (∀ (db : Db) (input : Input) (st : ResolverState),
      resolve_loop db input 0 st =
        Except.error "failed to reach fixedpoint after 1000 iters") ∧
    (∀ (db : Db) (input : Input) (gas : Nat) (st : ResolverState),
      resolve_loop db input (gas + 1) st =
        match sweep db input input st with
        | Except.error e => Except.error e
        | Except.ok st1 =>
          if st.processed_imports.length = st1.processed_imports.length then
            Except.ok st1
          else resolve_loop db input gas st1) ∧
    (∀ (db : Db) (input : Input) (mods : List (ModuleId × LoweredModule))
      (st st1 : ResolverState), sweep db input mods st = Except.ok st1 →
      ∀ p, p ∈ st.processed_imports → p ∈ st1.processed_imports) ∧
    (∀ (db : Db) (mid : ModuleId) (l : List (ImportId × ImportData))
      (st st1 : ResolverState),
      resolve_imports_go db mid l st = Except.ok st1 →
      ∀ p, p ∈ st1.processed_imports → p ∈ st.processed_imports ∨
        (p.fst = mid ∧ ∃ l1 d l2 s s2,
          l = l1 ++ (p.snd, d) :: l2 ∧
          resolve_imports_go db mid l1 st = Except.ok s ∧
          (mid, p.snd) ∉ s.processed_imports ∧
          resolve_import db s mid p.snd d = Except.ok (s2, ReachedFixedPoint.yes) ∧
          resolve_imports_go db mid l2
              { s2 with processed_imports := s2.processed_imports ++ [(mid, p.snd)] } =
            Except.ok st1)) ∧
    (∀ (db : Db) (input : Input) (mods : List (ModuleId × LoweredModule))
      (st st1 : ResolverState), sweep db input mods st = Except.ok st1 →
      ∀ p, p ∈ st1.processed_imports → p ∈ st.processed_imports ∨
        ∃ (mods1 : List (ModuleId × LoweredModule)) (lm : LoweredModule)
          (mods2 : List (ModuleId × LoweredModule)) (s s' : ResolverState),
          mods = mods1 ++ (p.fst, lm) :: mods2 ∧
          sweep db input mods1 st = Except.ok s ∧
          resolve_imports db input s p.fst = Except.ok s' ∧
          p ∉ s.processed_imports ∧ p ∈ s'.processed_imports ∧
          sweep db input mods2 s' = Except.ok st1) :=
  ⟨fun _ _ _ => rfl, fun _ _ _ _ => rfl,
    fun db input mods st st1 h => sweep_grows db input mods st st1 h,
    fun db mid l st st1 h => resolve_imports_go_marks db mid l st st1 h,
    fun db input mods st st1 h => sweep_marks db input mods st st1 h⟩

/-- C5 (witness): the cap fires at exhausted budget, and a sweep that
processes nothing keeps the processed set. -/
theorem claim_C5_witness :
    resolve_loop db8 input8 0 stW =
      Except.error "failed to reach fixedpoint after 1000 iters" ∧
    (∀ p, p ∈ stW.processed_imports → p ∈ stW.processed_imports) :=
  ⟨claim_C5_sweep_loop.1 db8 input8 stW,
    claim_C5_sweep_loop.2.2.1 db8 input8 input8 stW stW (by decide)⟩

/-- C6 (counterexample): the resolver is not order-independent: `inputB`
differs from `inputA` only in the iteration order of module 3's two
pending imports within the sweep (same import set), yet the final ItemMaps
differ. -/
theorem claim_C6_counterexample :
    ((lookupName inputB 3).getD default).imports =
      ((lookupName inputA 3).getD default).imports.reverse ∧
    ((lookupName inputB 3).getD default).declarations =
      ((lookupName inputA 3).getD default).declarations ∧
    lookupName inputA 0 = lookupName inputB 0 ∧
    lookupName inputA 1 = lookupName inputB 1 ∧
    lookupName inputA 2 = lookupName inputB 2 ∧
    Resolver.resolve db6 0 inputA ≠ Resolver.resolve db6 0 inputB := by decide

/-- C6 (amended): the resolver is deterministic for a fixed iteration order,
but the final ItemMap can depend on the import iteration order within a
module: when two imports can fill the same slot with different definitions the
first one processed wins, as both orders of the same import pair show. -/
theorem claim_C6_amended_first_wins :
    (Resolver.resolve db6 0 inputA).map (fun m => slotT m 3 20) =
      Except.ok (some (ModuleDef.other 100)) ∧
    (Resolver.resolve db6 0 inputB).map (fun m => slotT m 3 20) =
      Except.ok (some (ModuleDef.other 101)) := by decide

/-- C7: for an `Abs` path with at least one segment, the first segment is
looked up only in the extern prelude (the originating module's scope plays no
role in the equations below): absent means empty result with fixed point No,
present means the walk continues from that definition in the Types
namespace. -/
theorem claim_C7_abs_path (db : Db) (m : ItemMap) (om : Module) (segment : Name)
    (rest : List Name) :
    (lookupName m.extern_prelude segment = Option.none →
      resolve_path_fp db m om ⟨PathKind.abs, segment :: rest⟩ =
        (PerNs.none, ReachedFixedPoint.no)) ∧
    (∀ d, lookupName m.extern_prelude segment = some d →
      resolve_path_fp db m om ⟨PathKind.abs, segment :: rest⟩ =
        walk db m om (PerNs.types_ d) rest) := by
  constructor
  · intro h
    simp [resolve_path_fp, h]
  · intro d h
    simp [resolve_path_fp, h]

/-- C7 (witness): both branches at concrete inputs (`map3`'s prelude has name
5 but not name 6). -/
theorem claim_C7_witness :
    lookupName map3.extern_prelude 5 = some (ModuleDef.other 9) ∧
    resolve_path_fp db8 map3 ⟨0, 0⟩ ⟨PathKind.abs, [5]⟩ =
      walk db8 map3 ⟨0, 0⟩ (PerNs.types_ (ModuleDef.other 9)) [] ∧
    lookupName map3.extern_prelude 6 = Option.none ∧
    resolve_path_fp db8 map3 ⟨0, 0⟩ ⟨PathKind.abs, [6]⟩ =
      (PerNs.none, ReachedFixedPoint.no) :=
  ⟨by decide,
    (claim_C7_abs_path db8 map3 ⟨0, 0⟩ 5 []).2 (ModuleDef.other 9) (by decide),
    by decide,
    (claim_C7_abs_path db8 map3 ⟨0, 0⟩ 6 []).1 (by decide)⟩

/-- C8: an import whose path never resolves (`use bad::Thing;` with `bad`
undeclared) is not an error: the whole run returns normally (neither cap
fires), `Thing` does not resolve to any definition in the importer's scope,
and the unresolved state is the placeholder entry with an empty `PerNs`, not
a failure outcome. -/
theorem claim_C8_unresolved_import_benign :
    Resolver.resolve db8 0 input8 = Except.ok map8 ∧
    resolve_name_in_module map8 ⟨0, 0⟩ 3 = PerNs.none ∧
    (map8.scope 0).get 3 = some ⟨PerNs.none, some 0⟩ := by decide

/-- C9: `PerNs::or` is a slot-wise fallback (each slot keeps the existing
value if present, else takes the fallback's, independently); consequently
`none` is a two-sided identity and `or` is idempotent and associative. -/
theorem claim_C9_perns_or (T : Type) (a b c : PerNs T) :
    (a.or b).types = (if a.types.isSome then a.types else b.types) ∧
    (a.or b).values = (if a.values.isSome then a.values else b.values) ∧
    a.or PerNs.none = a ∧
    PerNs.none.or a = a ∧
    a.or a = a ∧
    (a.or b).or c = a.or (b.or c) := by
  obtain ⟨x1, x2⟩ := a
  refine ⟨?_, ?_, ?_, ?_, ?_, ?_⟩ <;>
    cases x1 <;> cases x2 <;>
      simp [PerNs.or, PerNs.none, Option.or_assoc]

/-- C10: resolving a non-glob import whose path has zero segments reaches
fixed point Yes for every path kind and then panics at the
`segments.last().unwrap()`; so `resolve_import` avoids this panic only under
the precondition that every non-glob import's path has at least one
segment. -/
theorem claim_C10_empty_path_unwrap (db : Db) (st : ResolverState) (mid : ModuleId)
    (iid : ImportId) (data : ImportData) (hglob : data.is_glob = false)
    (hseg : data.path.segments = []) :
    resolve_import db st mid iid data =
      Except.error "called Option unwrap on a None value" := by
  have hfp : ∀ (m : ItemMap) (om : Module),
      (resolve_path_fp db m om data.path).snd = ReachedFixedPoint.yes := by
    intro m om
    cases hk : data.path.kind
    · simp [resolve_path_fp, hk, hseg, walk]
    · simp [resolve_path_fp, hk, hseg, walk]
    · simp only [resolve_path_fp, hk, hseg]
      cases Module.parent db om <;> simp [walk]
    · simp [resolve_path_fp, hk, hseg]
    · simp [resolve_path_fp, hk, hseg]
  simp only [resolve_import, hfp, hglob, hseg, ne_eq, not_true_eq_false, if_false,
    Bool.false_eq_true, List.getLast?_nil]

/-- C10 (witness): a concrete zero-segment `crate`-kind non-glob import
panics at the unwrap. -/
theorem claim_C10_witness :
    (⟨⟨PathKind.crate, []⟩, Option.none, false, false⟩ : ImportData).is_glob = false ∧
    (⟨⟨PathKind.crate, []⟩, Option.none, false, false⟩ : ImportData).path.segments = [] ∧
    resolve_import db8 stW 0 9 ⟨⟨PathKind.crate, []⟩, Option.none, false, false⟩ =
      Except.error "called Option unwrap on a None value" :=
  ⟨rfl, rfl, claim_C10_empty_path_unwrap db8 stW 0 9 _ rfl rfl⟩

end Nameres
